import Mathlib

/-!
# Verification of the agent marketplace service layer

A shallow embedding, in Lean 4, of the escrow / fees / job-lifecycle /
wallet / auth code of the agent marketplace repository, together with
theorems settling the specification claims about that code.

Money amounts are modelled as exact rationals (`ℚ`); Python `Decimal`
arithmetic on `Numeric(12,2)` columns is exact, and the two quantization
modes used by the code (`ROUND_UP`, default `ROUND_HALF_EVEN`) are
embedded explicitly below.  Each service function that runs inside one
database transaction is modelled as a pure function on an explicit state;
an `HTTPException` raised before the final commit aborts the transaction,
so an error result carries no state change.
-/

set_option autoImplicit false

namespace Market

/-! ## Decimal quantization (app/services/fees.py uses `Decimal.quantize`)

`quantize(Decimal("0.01"), rounding=ROUND_UP)` rounds away from zero to
the next cent; `quantize(Decimal("0.01"))` with the default context
rounds half to even (banker's rounding). -/

/-- Python `Decimal.quantize(Decimal("0.01"), rounding=ROUND_UP)`:
round away from zero to a whole number of cents. -/
def quantRoundUp2 (x : ℚ) : ℚ :=
  (if 0 ≤ x then ⌈x * 100⌉ else ⌊x * 100⌋ : ℤ) / 100

/-- Round a rational to the nearest integer, ties to the even neighbour
(`ROUND_HALF_EVEN`, the `Decimal` default rounding mode). -/
def halfEvenInt (y : ℚ) : ℤ :=
  let n : ℤ := ⌊y⌋
  let f : ℚ := y - (n : ℚ)
  if f < 1/2 then n
  else if 1/2 < f then n + 1
  else if n % 2 = 0 then n else n + 1

/-- Python `Decimal.quantize(Decimal("0.01"))` with the default context:
round half to even, to a whole number of cents. -/
def quantHalfEven2 (x : ℚ) : ℚ :=
  (halfEvenInt (x * 100) : ℚ) / 100

theorem halfEvenInt_intCast (k : ℤ) : halfEvenInt ((k : ℤ) : ℚ) = k := by
  unfold halfEvenInt
  rw [Int.floor_intCast]
  norm_num

theorem halfEvenInt_odd_half (k : ℤ) :
    halfEvenInt ((k : ℚ) + 1/2) = if k % 2 = 0 then k else k + 1 := by
  have hfl : ⌊(k : ℚ) + 1/2⌋ = k := by
    rw [Int.floor_eq_iff]
    constructor <;> norm_num
  unfold halfEvenInt
  rw [hfl]
  norm_num

/-- Value of `halfEvenInt` at half an integer, written through the integer
(euclidean) division of the cents value. -/
theorem halfEvenInt_int_half (t : ℤ) :
    halfEvenInt ((t : ℚ) / 2) =
      if t % 2 = 0 then t / 2
      else if (t / 2) % 2 = 0 then t / 2 else t / 2 + 1 := by
  rcases Int.even_or_odd t with ⟨k, hk⟩ | ⟨k, hk⟩
  · subst hk
    have h2 : ((k + k : ℤ) : ℚ) / 2 = ((k : ℤ) : ℚ) := by push_cast; ring
    have hmod : (k + k) % 2 = 0 := by omega
    have hdiv : (k + k) / 2 = k := by omega
    rw [h2, hmod, hdiv, halfEvenInt_intCast]
    simp
  · subst hk
    have h2 : ((2 * k + 1 : ℤ) : ℚ) / 2 = (k : ℚ) + 1/2 := by push_cast; ring
    have hmod : (2 * k + 1) % 2 = 1 := by omega
    have hdiv : (2 * k + 1) / 2 = k := by omega
    rw [h2, hmod, hdiv, halfEvenInt_odd_half]
    norm_num

/-! ## Fee calculation (app/services/fees.py) -/

/-- The `FeeBreakdown` dataclass from `app/services/fees.py`
(the human-readable `detail` string is not modelled). -/
structure FeeBreakdown where
  fee_type : String
  amount : ℚ
  deriving DecidableEq, Repr

/-- Default of `settings.fee_base_percent` in `app/config.py`:
`Decimal("0.01")`, i.e. 1% total. -/
def fee_base_percent : ℚ := 1/100

/-- Model of `calculate_base_fee` from `app/services/fees.py`, parametrized by the
configured `settings.fee_base_percent`.  Computes the total base
marketplace fee (rounded up to the cent) and splits it: the seller share
is half of the total quantized with the `Decimal` default rounding
(half-even), the client share is the remainder. -/
def calculate_base_fee (basePercent agreedPrice : ℚ) : FeeBreakdown × FeeBreakdown :=
  let total := quantRoundUp2 (agreedPrice * basePercent)
  let seller_share := quantHalfEven2 (total / 2)
  let client_share := total - seller_share
  (⟨"base_client", client_share⟩, ⟨"base_seller", seller_share⟩)

/-- Concrete evaluation of the fee split at price 2.01 with the default
1% fee: total fee is 3 cents, the seller share rounds (half-even) to
2 cents, the client share is the remaining 1 cent. -/
theorem calculate_base_fee_at_201 :
    calculate_base_fee fee_base_percent (201/100) =
      (⟨"base_client", 1/100⟩, ⟨"base_seller", 2/100⟩) := by
  have hceil : (⌈(201/100 * fee_base_percent : ℚ) * 100⌉ : ℤ) = 3 := by
    rw [Int.ceil_eq_iff]
    unfold fee_base_percent
    norm_num
  have htotal : quantRoundUp2 (201/100 * fee_base_percent) = 3/100 := by
    unfold quantRoundUp2
    rw [if_pos (by unfold fee_base_percent; norm_num), hceil]
    norm_num
  have hhe : halfEvenInt ((3/100 : ℚ) / 2 * 100) = 2 := by
    have h32 : ((3/100 : ℚ) / 2 * 100) = ((3 : ℤ) : ℚ) / 2 := by push_cast; ring
    rw [h32, halfEvenInt_int_half]
    decide
  simp only [calculate_base_fee, quantHalfEven2]
  rw [htotal, hhe]
  norm_num [Prod.mk.injEq, FeeBreakdown.mk.injEq]

/-- Concrete evaluation of the fee split at price 28.00 with the
default 1% fee: 28 cents total, 14 cents to each party. -/
theorem calculate_base_fee_at_28 :
    calculate_base_fee fee_base_percent 28 =
      (⟨"base_client", 14/100⟩, ⟨"base_seller", 14/100⟩) := by
  have hceil : (⌈(28 * fee_base_percent : ℚ) * 100⌉ : ℤ) = 28 := by
    rw [Int.ceil_eq_iff]
    unfold fee_base_percent
    norm_num
  have htotal : quantRoundUp2 (28 * fee_base_percent) = 28/100 := by
    unfold quantRoundUp2
    rw [if_pos (by unfold fee_base_percent; norm_num), hceil]
    norm_num
  have hhe : halfEvenInt ((28/100 : ℚ) / 2 * 100) = 14 := by
    have h32 : ((28/100 : ℚ) / 2 * 100) = ((28 : ℤ) : ℚ) / 2 := by push_cast; ring
    rw [h32, halfEvenInt_int_half]
    decide
  simp only [calculate_base_fee, quantHalfEven2]
  rw [htotal, hhe]
  norm_num [Prod.mk.injEq, FeeBreakdown.mk.injEq]

/-! ## Job statuses and the transition table (app/models/job.py) -/

/-- The `JobStatus` enum from `app/models/job.py`. -/
inductive JobStatus where
  | proposed | negotiating | agreed | funded | in_progress
  | delivered | verifying | completed | failed | disputed
  | resolved | cancelled
  deriving DecidableEq, Repr, Fintype

/-- The `.value` string of each `JobStatus` enum member. -/
def JobStatus.value : JobStatus → String
  | .proposed => "proposed"
  | .negotiating => "negotiating"
  | .agreed => "agreed"
  | .funded => "funded"
  | .in_progress => "in_progress"
  | .delivered => "delivered"
  | .verifying => "verifying"
  | .completed => "completed"
  | .failed => "failed"
  | .disputed => "disputed"
  | .resolved => "resolved"
  | .cancelled => "cancelled"

/-- The `VALID_TRANSITIONS` table from `app/models/job.py` (sets listed as lists). -/
def VALID_TRANSITIONS : JobStatus → List JobStatus
  | .proposed => [.negotiating, .agreed, .cancelled]
  | .negotiating => [.agreed, .cancelled]
  | .agreed => [.funded, .cancelled]
  | .funded => [.in_progress]
  | .in_progress => [.delivered, .failed]
  | .delivered => [.verifying, .failed]
  | .verifying => [.completed, .failed]
  | .completed => []
  | .failed => [.disputed]
  | .disputed => [.resolved]
  | .resolved => []
  | .cancelled => []

/-! ## Error model

`HTTPException(status_code=..., detail=...)` is modelled as a status
code together with a constructor per `detail` message template; the
constructor arguments are the values interpolated into the message. -/

/-- The `detail` payload of each `HTTPException` raised by the modelled
services; constructor arguments are the interpolated values. -/
inductive ErrDetail where
  | jobNotFound
  | jobMustBeAgreed (current : JobStatus)
  | onlyClientCanFund
  | noAgreedPrice
  | escrowAlreadyExists
  | clientAgentNotFound
  | insufficientBalance (balance amount : ℚ)
  | escrowNotFound
  | escrowMustBeFunded (current : String)
  | sellerAgentNotFound
  | jobMustBeDeliveredToComplete (current : JobStatus)
  | cannotTransition (current target : JobStatus)
  | notPartyToJob
  | missingCriteriaHash
  | criteriaHashMismatch
  | withdrawalBelowFee
  | withdrawalBelowMinimum
  | withdrawalAboveMaximum
  | agentNotFound
  | missingAuthHeaders
  | invalidAuthScheme
  | malformedAuthHeader
  | timestampExpired
  | nonceAlreadyUsed
  | agentNotActive
  | invalidSignature
  deriving DecidableEq, Repr

/-- An `HTTPException`: status code plus detail. -/
structure ApiError where
  status : Nat
  detail : ErrDetail
  deriving DecidableEq, Repr

/-- Model of `_assert_transition` from `app/services/job.py`: raise 409, with the
current and target statuses in the message, when the transition is not
in `VALID_TRANSITIONS`. -/
def assert_transition (current target : JobStatus) : Except ApiError Unit :=
  if target ∈ VALID_TRANSITIONS current then Except.ok ()
  else Except.error ⟨409, .cannotTransition current target⟩

/-! ## Escrow service (app/services/escrow.py)

One job between one client and one seller; the rows touched by the
escrow service are modelled explicitly.  Each service call runs in one
database transaction: an `HTTPException` raised before the final
`commit` rolls everything back, so an error result is modelled with no
successor state. -/

/-- The `EscrowStatus` enum from `app/models/escrow.py`. -/
inductive EscrowStatus where
  | pending | funded | released | refunded | disputed
  deriving DecidableEq, Repr

/-- The `.value` string of each `EscrowStatus` enum member. -/
def EscrowStatus.value : EscrowStatus → String
  | .pending => "pending"
  | .funded => "funded"
  | .released => "released"
  | .refunded => "refunded"
  | .disputed => "disputed"

/-- The `EscrowAction` enum from `app/models/escrow.py`. -/
inductive EscrowAction where
  | created | funded | released | refunded | disputed | resolved
  deriving DecidableEq, Repr

/-- The `escrow_accounts` row for the job (ids and timestamps omitted). -/
structure EscrowAccount where
  amount : ℚ
  status : EscrowStatus
  deriving DecidableEq, Repr

/-- The fee breakdown written into the metadata of the `released` audit
entry by `release_escrow` (stored as strings in the JSONB column). -/
structure ReleaseMeta where
  total_fee : ℚ
  client_base_fee : ℚ
  seller_base_fee : ℚ
  fee_base_percent : ℚ
  deriving DecidableEq, Repr

/-- One `escrow_audit_log` row (ids and timestamp omitted). -/
structure AuditEntry where
  action : EscrowAction
  amount : ℚ
  metadata : Option ReleaseMeta
  deriving DecidableEq, Repr

/-- The database state touched by the escrow service for one job:
the job row's status and agreed price, the two agents' balance rows,
the escrow row (if any) and the audit log. -/
structure MarketState where
  jobStatus : JobStatus
  agreedPrice : Option ℚ
  clientBalance : ℚ
  sellerBalance : ℚ
  escrow : Option EscrowAccount
  auditLog : List AuditEntry
  deriving DecidableEq, Repr

/-- Model of `fund_job` from `app/services/escrow.py`.  `callerIsClient` records
whether `client_agent_id` passed by the router equals the job's client.
Checks happen in source order: job status, caller, agreed price,
pre-existing escrow, then (under the row lock) sufficient balance; on
success the client is debited, a funded escrow is created, the job moves
to `funded` and two audit entries are appended. -/
def fund_job (s : MarketState) (callerIsClient : Bool) : Except ApiError MarketState :=
  if s.jobStatus ≠ JobStatus.agreed then
    Except.error ⟨409, .jobMustBeAgreed s.jobStatus⟩
  else if ¬callerIsClient then
    Except.error ⟨403, .onlyClientCanFund⟩
  else
    match s.agreedPrice with
    | none => Except.error ⟨422, .noAgreedPrice⟩
    | some amount =>
      if amount ≤ 0 then Except.error ⟨422, .noAgreedPrice⟩
      else if s.escrow.isSome then Except.error ⟨409, .escrowAlreadyExists⟩
      else if s.clientBalance < amount then
        Except.error ⟨422, .insufficientBalance s.clientBalance amount⟩
      else
        Except.ok
          { s with
            clientBalance := s.clientBalance - amount
            escrow := some ⟨amount, EscrowStatus.funded⟩
            jobStatus := JobStatus.funded
            auditLog := s.auditLog ++
              [⟨EscrowAction.created, amount, none⟩,
               ⟨EscrowAction.funded, amount, none⟩] }

/-- Model of `release_escrow` from `app/services/escrow.py`, parametrized by the
configured `settings.fee_base_percent`.  Requires a funded escrow and a
job in `delivered` or `verifying`; credits the seller with the escrow
amount minus the seller's base-fee share, deducts the client's share
only if the client's balance covers it, marks the escrow released, the
job completed, and appends an audit entry with the fee breakdown.
(The 409 job-status check textually follows the balance updates in the
source, but it fires before the transaction commits, so on that error
nothing persists.) -/
def release_escrow (bp : ℚ) (s : MarketState) : Except ApiError MarketState :=
  match s.escrow with
  | none => Except.error ⟨404, .escrowNotFound⟩
  | some esc =>
    if esc.status ≠ EscrowStatus.funded then
      Except.error ⟨409, .escrowMustBeFunded esc.status.value⟩
    else
      let client_base_fee := (calculate_base_fee bp esc.amount).1.amount
      let seller_base_fee := (calculate_base_fee bp esc.amount).2.amount
      let total_fee := client_base_fee + seller_base_fee
      let seller_payout := esc.amount - seller_base_fee
      let clientBalanceAfter :=
        if client_base_fee ≤ s.clientBalance then s.clientBalance - client_base_fee
        else s.clientBalance
      if s.jobStatus ≠ JobStatus.delivered ∧ s.jobStatus ≠ JobStatus.verifying then
        Except.error ⟨409, .jobMustBeDeliveredToComplete s.jobStatus⟩
      else
        Except.ok
          { s with
            clientBalance := clientBalanceAfter
            sellerBalance := s.sellerBalance + seller_payout
            escrow := some ⟨esc.amount, EscrowStatus.released⟩
            jobStatus := JobStatus.completed
            auditLog := s.auditLog ++
              [⟨EscrowAction.released, seller_payout,
                some ⟨total_fee, client_base_fee, seller_base_fee, bp⟩⟩] }

/-- Model of `refund_escrow` from `app/services/escrow.py`: requires a funded
escrow; credits the client with the full amount, marks the escrow
refunded and forces the job to `failed` (if not already). -/
def refund_escrow (s : MarketState) : Except ApiError MarketState :=
  match s.escrow with
  | none => Except.error ⟨404, .escrowNotFound⟩
  | some esc =>
    if esc.status ≠ EscrowStatus.funded then
      Except.error ⟨409, .escrowMustBeFunded esc.status.value⟩
    else
      Except.ok
        { s with
          clientBalance := s.clientBalance + esc.amount
          escrow := some ⟨esc.amount, EscrowStatus.refunded⟩
          jobStatus := JobStatus.failed
          auditLog := s.auditLog ++ [⟨EscrowAction.refunded, esc.amount, none⟩] }

/-- The job-status step of `_fail_overdue_job` in
`app/services/deadline_queue.py` (lines 104–117): an overdue job still
in `funded`, `in_progress` or `delivered` is set to `failed` (the escrow
refund then follows); any other status is skipped. -/
def deadline_fail_status (st : JobStatus) : Option JobStatus :=
  if st = JobStatus.funded ∨ st = JobStatus.in_progress ∨ st = JobStatus.delivered then
    some JobStatus.failed
  else none

/-! ## Job acceptance (app/services/job.py, `accept_job`) -/

/-- The fields of the `jobs` row used by `accept_job`.  Agent ids are
modelled as naturals; `acceptance_criteria` keeps only its canonical
JSON serialization (its content is irrelevant to `accept_job`, which
only tests `is not None`). -/
structure JobRow where
  status : JobStatus
  client_agent_id : Nat
  seller_agent_id : Nat
  acceptance_criteria : Option String
  acceptance_criteria_hash : Option String
  deriving DecidableEq, Repr

/-- The `AcceptJob` request schema (`app/schemas/job.py`). -/
structure AcceptJob where
  acceptance_criteria_hash : Option String
  deriving DecidableEq, Repr

/-- Python truthiness of `provided_hash`: `None` and the empty string
are both falsy, so both count as a missing hash. -/
def hashMissing : Option String → Bool
  | none => true
  | some h => h = ""

/-- Python expression `data.acceptance_criteria_hash if data else None` from
`accept_job`. -/
def provided_hash : Option AcceptJob → Option String
  | some d => d.acceptance_criteria_hash
  | none => none

/-- Model of `accept_job` from `app/services/job.py` (the negotiation-log append
is not modelled).  Party check, then the transition check to `agreed`;
a seller accepting a job that has acceptance criteria must supply the
stored criteria hash (missing → 422, mismatch → 409); the client, who
authored the criteria, is exempt. -/
def accept_job (job : JobRow) (agent_id : Nat) (data : Option AcceptJob) :
    Except ApiError JobRow :=
  if ¬(agent_id = job.client_agent_id ∨ agent_id = job.seller_agent_id) then
    Except.error ⟨403, .notPartyToJob⟩
  else
    match assert_transition job.status JobStatus.agreed with
    | Except.error e => Except.error e
    | Except.ok _ =>
      if agent_id = job.seller_agent_id ∧ job.acceptance_criteria ≠ none then
        if hashMissing (provided_hash data) then
          Except.error ⟨422, .missingCriteriaHash⟩
        else if provided_hash data ≠ job.acceptance_criteria_hash then
          Except.error ⟨409, .criteriaHashMismatch⟩
        else Except.ok { job with status := JobStatus.agreed }
      else Except.ok { job with status := JobStatus.agreed }

/-! ## Job serialization (app/schemas/job.py, `JobResponse`) -/

/-- The `JobResponse` fields relevant to deliverable hiding: the
serialized `status` string and the `result` payload (kept as its JSON
serialization). -/
structure JobResponse where
  status : String
  result : Option String
  deriving DecidableEq, Repr

/-- The `status` field validator of `JobResponse`: an enum member is
serialized to its `.value` string. -/
def serialize_status (st : JobStatus) : String := st.value

/-- Model of `redact_result_unless_completed`, the `mode="after"` model validator
of `JobResponse`: strip `result` whenever `status` is not `"completed"`. -/
def redact_result_unless_completed (r : JobResponse) : JobResponse :=
  if r.status ≠ "completed" then { r with result := none } else r

/-- Building the API response for a job: serialize the status, then run
the redaction validator. -/
def jobResponseFor (st : JobStatus) (result : Option String) : JobResponse :=
  redact_result_unless_completed ⟨serialize_status st, result⟩

/-! ## Wallet withdrawals (app/services/wallet.py) -/

/-- The `WithdrawalStatus` enum from `app/models/wallet.py`. -/
inductive WithdrawalStatus where
  | pending | processing | completed | failed
  deriving DecidableEq, Repr

/-- A `withdrawal_requests` row (ids, destination and timestamps
omitted). -/
structure WithdrawalRow where
  amount : ℚ
  fee : ℚ
  net_payout : ℚ
  status : WithdrawalStatus
  deriving DecidableEq, Repr

/-- Withdrawal-related settings from `app/config.py` with their
defaults: `withdrawal_flat_fee = 0.50`, `min_withdrawal_amount = 1.00`,
`max_withdrawal_amount = 100000.00`. -/
structure WalletSettings where
  withdrawal_flat_fee : ℚ
  min_withdrawal_amount : ℚ
  max_withdrawal_amount : ℚ
  deriving DecidableEq, Repr

def defaultWalletSettings : WalletSettings := ⟨1/2, 1, 100000⟩

/-- The state touched by one agent's withdrawal: the balance row and the
withdrawal row the request creates. -/
structure WalletState where
  balance : ℚ
  withdrawal : Option WithdrawalRow
  deriving DecidableEq, Repr

/-- Model of `request_withdrawal` from `app/services/wallet.py`: validates the
net payout and the min/max bounds, locks the balance row, requires
sufficient balance, then immediately deducts the gross amount and
creates a `pending` withdrawal row. -/
def request_withdrawal (cfg : WalletSettings) (s : WalletState) (amount : ℚ) :
    Except ApiError WalletState :=
  let fee := cfg.withdrawal_flat_fee
  let net_payout := amount - fee
  if net_payout ≤ 0 then Except.error ⟨422, .withdrawalBelowFee⟩
  else if amount < cfg.min_withdrawal_amount then
    Except.error ⟨422, .withdrawalBelowMinimum⟩
  else if cfg.max_withdrawal_amount < amount then
    Except.error ⟨422, .withdrawalAboveMaximum⟩
  else if s.balance < amount then
    Except.error ⟨422, .insufficientBalance s.balance amount⟩
  else
    Except.ok
      { balance := s.balance - amount
        withdrawal := some ⟨amount, fee, net_payout, WithdrawalStatus.pending⟩ }

/-- Model of `_process_withdrawal` from `app/services/wallet.py` as a state
transformer.  `treasuryConfigured` models
`settings.treasury_wallet_private_key` being set, `sendOk` whether the
on-chain USDC transfer succeeds.  A missing treasury or a non-`pending`
row leaves the state untouched; a successful send completes the
withdrawal; a failed send marks it `failed` and refunds the gross
amount to the agent's balance. -/
def process_withdrawal (treasuryConfigured sendOk : Bool) (s : WalletState) :
    WalletState :=
  if ¬treasuryConfigured then s
  else
    match s.withdrawal with
    | none => s
    | some w =>
      if w.status ≠ WithdrawalStatus.pending then s
      else if sendOk then
        { s with withdrawal := some { w with status := WithdrawalStatus.completed } }
      else
        { balance := s.balance + w.amount
          withdrawal := some { w with status := WithdrawalStatus.failed } }

/-! ## Declarative test runner (app/services/test_runner.py) -/

/-- The `pass_threshold` values: the strings `"all"` and `"majority"`, a
`{"min_pass": N}` object, or anything unrecognized (which the code
treats like `"all"`). -/
inductive PassThreshold where
  | all
  | majority
  | minPass (n : Nat)
  | unrecognized
  deriving DecidableEq, Repr

/-- Model of `SuiteResult.passed` from `app/services/test_runner.py`, over the
list of per-test outcomes.  `"all"`: every test passed; `"majority"`:
`passed_count > len(results) / 2` (exact division, i.e.
`2 * passed_count > len`); `{"min_pass": N}`: `passed_count >= N`;
anything else falls through to the `"all"` behaviour. -/
def suite_passed (threshold : PassThreshold) (results : List Bool) : Bool :=
  match threshold with
  | .all => results.all id
  | .majority => decide (2 * (results.filter id).length > results.length)
  | .minPass n => decide ((results.filter id).length ≥ n)
  | .unrecognized => results.all id

/-- Model of `run_test_suite` from `app/services/test_runner.py`, abstracted over
the per-test runner `runTest` (type dispatch, JSONPath resolution and
assertion evaluation; an unknown test type yields a failed result).
An empty suite short-circuits; a suite of more than 20 tests raises
`ValueError` before any test runs; otherwise every test is run and the
outcomes are collected with the suite's threshold. -/
def run_test_suite {α : Type} (runTest : α → Bool) (tests : List α)
    (threshold : PassThreshold) : Except String (PassThreshold × List Bool) :=
  if tests.isEmpty then Except.ok (threshold, [])
  else if tests.length > 20 then Except.error "Maximum 20 tests per suite"
  else Except.ok (threshold, tests.map runTest)

/-! ## Auth middleware (app/auth/middleware.py, `verify_request`) -/

/-- The `AgentStatus` enum from `app/models/agent.py`. -/
inductive AgentStatus where
  | active | suspended | deactivated
  deriving DecidableEq, Repr

/-- The agent row fields used by `verify_request`. -/
structure AgentRow where
  agent_id : Nat
  status : AgentStatus
  deriving DecidableEq, Repr

/-- The Redis nonce store: a set of `nonce:{n}` keys with expiry times
(seconds).  A key is present at time `now` while `now < expiry`. -/
def NonceStore := List (String × Nat)

/-- Whether the key for nonce `n` is live in the store at time `now`. -/
def nonceLive (store : NonceStore) (now : Nat) (n : String) : Bool :=
  store.any fun p => p.1 = n && decide (now < p.2)

/-- Model of `redis.set(key, "1", nx=True, ex=ttl)`: set-if-absent with TTL.
Returns whether the key was fresh, and the updated store. -/
def nonceSetNX (store : NonceStore) (now ttl : Nat) (n : String) :
    Bool × NonceStore :=
  if nonceLive store now n then (false, store)
  else (true, (n, now + ttl) :: store)

/-- The request headers of `verify_request` after transport decoding:
presence of `Authorization` and `X-Timestamp`, whether the scheme is
`AgentSig`, whether `<agent_id>:<signature>` parses, whether the
timestamp is within the freshness window, and the optional `X-Nonce`
(the code guards the nonce block with Python truthiness, so a missing
or empty `X-Nonce` header are both modelled as `none`). -/
structure AuthHeaders where
  hasAuthorization : Bool
  hasTimestamp : Bool
  schemeOk : Bool
  parseOk : Bool
  timestampFresh : Bool
  nonce : Option String
  deriving DecidableEq, Repr

/-- The later authentication steps of `verify_request` (after the nonce
check): agent lookup, active check, signature verification. -/
def verifyAgentAndSignature (agent : Option AgentRow) (sigValid : Bool) :
    Except ApiError AgentRow :=
  match agent with
  | none => Except.error ⟨403, .agentNotFound⟩
  | some a =>
    if a.status ≠ AgentStatus.active then Except.error ⟨403, .agentNotActive⟩
    else if ¬sigValid then Except.error ⟨403, .invalidSignature⟩
    else Except.ok a

/-- Model of `verify_request` from `app/auth/middleware.py`.  Header checks in
source order; then, when an `X-Nonce` header is present, the nonce is
consumed with set-if-absent + TTL (reuse → 403 "Nonce already used");
only afterwards are the agent looked up, its status checked and the
signature verified.  Returns the outcome together with the nonce store
as left behind by the request. -/
def verify_request (store : NonceStore) (now ttl : Nat) (hdrs : AuthHeaders)
    (agent : Option AgentRow) (sigValid : Bool) :
    Except ApiError AgentRow × NonceStore :=
  if ¬hdrs.hasAuthorization ∨ ¬hdrs.hasTimestamp then
    (Except.error ⟨403, .missingAuthHeaders⟩, store)
  else if ¬hdrs.schemeOk then (Except.error ⟨403, .invalidAuthScheme⟩, store)
  else if ¬hdrs.parseOk then (Except.error ⟨403, .malformedAuthHeader⟩, store)
  else if ¬hdrs.timestampFresh then (Except.error ⟨403, .timestampExpired⟩, store)
  else
    match hdrs.nonce with
    | some n =>
      let fresh := nonceSetNX store now ttl n
      if ¬fresh.1 then (Except.error ⟨403, .nonceAlreadyUsed⟩, fresh.2)
      else (verifyAgentAndSignature agent sigValid, fresh.2)
    | none => (verifyAgentAndSignature agent sigValid, store)

/-! ## Startup recovery (app/main.py, `_recover_wallet_tasks`)

`_recover_wallet_tasks` opens with
`from app.models.wallet import WalletDeposit, WalletWithdrawal` and
`from app.services.wallet import _watch_deposit_confirmations, _process_withdrawal`,
inside its `try` block.  Python resolves each imported name against the
module's top-level attributes when the statement executes, so the
recovery behaviour hinges on whether those attributes exist; the
blanket `except Exception` at the end of the function swallows an
`ImportError`.  The two modules' top-level definitions are listed
verbatim below (their own `import`ed names are omitted — none of them
is one of the requested attributes either). -/

/-- The `DepositStatus` enum from `app/models/wallet.py`. -/
inductive DepositStatus where
  | pending | confirming | credited | failed
  deriving DecidableEq, Repr

/-- The classes defined at top level in `app/models/wallet.py`. -/
def wallet_model_names : List String :=
  ["DepositStatus", "WithdrawalStatus", "DepositAddress",
   "DepositTransaction", "WithdrawalRequest"]

/-- The functions defined at top level in `app/services/wallet.py`. -/
def wallet_service_names : List String :=
  ["_derive_address", "_usdc_to_credits", "_credits_to_usdc_raw",
   "get_or_create_deposit_address", "get_pending_withdrawal_total",
   "get_available_balance", "request_withdrawal", "_process_withdrawal",
   "credit_deposit", "verify_deposit_tx", "_wait_and_credit_deposit",
   "get_deposit_history", "get_withdrawal_history"]

/-- Whether the two import statements at the top of
`_recover_wallet_tasks` resolve: every requested name must be a
top-level attribute of its module. -/
def recovery_imports_resolve : Bool :=
  (["WalletDeposit", "WalletWithdrawal"].all fun n =>
    wallet_model_names.contains n) &&
  (["_watch_deposit_confirmations", "_process_withdrawal"].all fun n =>
    wallet_service_names.contains n)

/-- A deposit row as far as recovery is concerned. -/
structure DepositRow where
  deposit_tx_id : Nat
  status : DepositStatus
  deriving DecidableEq, Repr

/-- A withdrawal row as far as recovery is concerned. -/
structure WithdrawalReqRow where
  withdrawal_id : Nat
  status : WithdrawalStatus
  deriving DecidableEq, Repr

/-- A background task spawned by startup recovery. -/
inductive RecoveredTask where
  | depositWatcher (deposit_tx_id : Nat)
  | withdrawalWorker (withdrawal_id : Nat)
  deriving DecidableEq, Repr

/-- Model of `_recover_wallet_tasks` from `app/main.py`: when the imports
resolve, spawn a watcher for every `confirming` deposit and a worker
for every `pending`/`processing` withdrawal; when they do not, the
`ImportError` is caught by the blanket `except Exception` and no task
is spawned. -/
def recover_wallet_tasks (deposits : List DepositRow)
    (withdrawals : List WithdrawalReqRow) : List RecoveredTask :=
  if recovery_imports_resolve then
    ((deposits.filter fun d => d.status = DepositStatus.confirming).map
      fun d => RecoveredTask.depositWatcher d.deposit_tx_id) ++
    ((withdrawals.filter fun w =>
        w.status = WithdrawalStatus.pending ∨ w.status = WithdrawalStatus.processing).map
      fun w => RecoveredTask.withdrawalWorker w.withdrawal_id)
  else []

/-! ## The §4.2 transition table as the specification states it -/

/-- The transition table exactly as spelled in §4.2 of the
specification (for comparison with the code's `VALID_TRANSITIONS`);
the two differ in the `delivered → completed` edge. -/
def specTransitionTable : JobStatus → List JobStatus
  | .proposed => [.negotiating, .agreed, .cancelled]
  | .negotiating => [.agreed, .cancelled]
  | .agreed => [.funded, .cancelled]
  | .funded => [.in_progress]
  | .in_progress => [.delivered, .failed]
  | .delivered => [.verifying, .failed, .completed]
  | .verifying => [.completed, .failed]
  | .completed => []
  | .failed => [.disputed]
  | .disputed => [.resolved]
  | .resolved => []
  | .cancelled => []

end Market

namespace Claims

open Market

/-! ## C5 — startup recovery of wallet tasks -/

/-- C5: the claim says a process start re-spawns a confirmation watcher
for every `confirming` deposit and a payout worker for every `pending`
or `processing` withdrawal.  The code cannot: `_recover_wallet_tasks`
imports `WalletDeposit` and `WalletWithdrawal` from `app.models.wallet`
and `_watch_deposit_confirmations` from `app.services.wallet`, none of
which exist (the models are `DepositTransaction` / `WithdrawalRequest`
and the watcher is `_wait_and_credit_deposit`); the `ImportError` is
swallowed by the blanket `except Exception`, so with a confirming
deposit and a pending withdrawal present, no task at all is re-spawned. -/
theorem c5_recover_wallet_tasks_spawns_nothing :
    recovery_imports_resolve = false ∧
    recover_wallet_tasks
      [⟨1, DepositStatus.confirming⟩] [⟨2, WithdrawalStatus.pending⟩] = [] := by
  constructor
  · decide
  · unfold recover_wallet_tasks
    rw [if_neg]
    intro h
    exact absurd h (by decide)

/-! ## C8 — deliverable hiding in serialized job responses -/

theorem JobStatus.value_eq_completed_iff (st : JobStatus) :
    st.value = "completed" ↔ st = JobStatus.completed := by
  cases st <;> simp [JobStatus.value]

/-- C8: for every job in any status other than `completed`, the
serialized job response has `result = null`; the deliverable is
surfaced exactly when the status is `completed`. -/
theorem c8_result_redacted_unless_completed :
    (∀ (st : JobStatus) (res : Option String), st ≠ JobStatus.completed →
      jobResponseFor st res = ⟨st.value, none⟩) ∧
    (∀ res : Option String,
      jobResponseFor JobStatus.completed res = ⟨"completed", res⟩) := by
  constructor
  · intro st res hne
    unfold jobResponseFor redact_result_unless_completed serialize_status
    rw [if_pos]
    exact fun h => hne ((JobStatus.value_eq_completed_iff st).mp h)
  · intro res
    rfl

/-- C8 witness: a `delivered` job's response carries no result. -/
theorem c8_witness :
    jobResponseFor JobStatus.delivered (some "work-product") =
      ⟨"delivered", none⟩ :=
  c8_result_redacted_unless_completed.1 JobStatus.delivered
    (some "work-product") (by decide)

/-! ## C9 — test suite thresholds and the 20-test cap -/

/-- C9: `"all"` passes iff every test passes, `"majority"` iff strictly
more than half pass, `{"min_pass": N}` iff at least `N` pass, and a
suite of more than 20 tests is rejected (ValueError) before any test
runs. -/
theorem c9_suite_thresholds :
    (∀ results : List Bool,
      suite_passed PassThreshold.all results = true ↔ ∀ r ∈ results, r = true) ∧
    (∀ results : List Bool,
      suite_passed PassThreshold.majority results = true ↔
        2 * (results.filter id).length > results.length) ∧
    (∀ (n : Nat) (results : List Bool),
      suite_passed (PassThreshold.minPass n) results = true ↔
        (results.filter id).length ≥ n) ∧
    (∀ (tests : List Nat) (runTest : Nat → Bool) (th : PassThreshold),
      tests.length > 20 →
        run_test_suite runTest tests th =
          Except.error "Maximum 20 tests per suite") := by
  refine ⟨?_, ?_, ?_, ?_⟩
  · intro results
    simp [suite_passed, List.all_eq_true]
  · intro results
    simp [suite_passed]
  · intro n results
    simp [suite_passed]
  · intro tests runTest th hlen
    unfold run_test_suite
    have hne : tests.isEmpty = false := by
      cases tests with
      | nil => simp at hlen
      | cons a l => rfl
    rw [hne]
    simp [hlen]

/-- C9 witness: concrete suites for each threshold, and a 21-test suite
that is rejected up front. -/
theorem c9_witness :
    suite_passed PassThreshold.all [true, true] = true ∧
    suite_passed PassThreshold.majority [true, true, false] = true ∧
    suite_passed (PassThreshold.minPass 2) [true, false, true] = true ∧
    run_test_suite (fun _ => true) (List.replicate 21 0) PassThreshold.all =
      Except.error "Maximum 20 tests per suite" := by
  refine ⟨?_, ?_, ?_, ?_⟩
  · exact (c9_suite_thresholds.1 [true, true]).mpr (by decide)
  · exact (c9_suite_thresholds.2.1 [true, true, false]).mpr (by decide)
  · exact (c9_suite_thresholds.2.2.1 2 [true, false, true]).mpr (by decide)
  · exact c9_suite_thresholds.2.2.2 (List.replicate 21 0) (fun _ => true)
      PassThreshold.all (by decide)

/-! ## C10 — nonce burned before later authentication steps -/

/-- C10: with well-formed headers and a fresh `X-Nonce`, the nonce is
consumed (set-if-absent with TTL) before the agent lookup / active
check / signature verification, whose outcome is returned unchanged; a
request reusing a live nonce is rejected 403 "Nonce already used"; the
stored nonce stays live until its TTL expires; and a missing agent, an
inactive agent or a bad signature each make the later steps fail — so a
replayed nonce is rejected even though the first request never
succeeded. -/
theorem c10_nonce_consumed_before_auth
    (store : NonceStore) (now ttl : Nat) (hdrs : AuthHeaders)
    (agent : Option AgentRow) (sigValid : Bool) (n : String)
    (hAuth : hdrs.hasAuthorization = true) (hTs : hdrs.hasTimestamp = true)
    (hScheme : hdrs.schemeOk = true) (hParse : hdrs.parseOk = true)
    (hFresh : hdrs.timestampFresh = true) (hNonce : hdrs.nonce = some n) :
    (nonceLive store now n = false →
      verify_request store now ttl hdrs agent sigValid =
        (verifyAgentAndSignature agent sigValid, (n, now + ttl) :: store)) ∧
    (nonceLive store now n = true →
      verify_request store now ttl hdrs agent sigValid =
        (Except.error ⟨403, ErrDetail.nonceAlreadyUsed⟩, store)) ∧
    (∀ now2, now2 < now + ttl →
      nonceLive ((n, now + ttl) :: store) now2 n = true) ∧
    ((agent = none ∨ (∃ a, agent = some a ∧ a.status ≠ AgentStatus.active) ∨
        sigValid = false) →
      ∃ e : ApiError, verifyAgentAndSignature agent sigValid = Except.error e) := by
  refine ⟨?_, ?_, ?_, ?_⟩
  · intro hlive
    unfold verify_request
    rw [hAuth, hTs, hScheme, hParse, hFresh, hNonce]
    simp [nonceSetNX, hlive]
  · intro hlive
    unfold verify_request
    rw [hAuth, hTs, hScheme, hParse, hFresh, hNonce]
    simp [nonceSetNX, hlive]
  · intro now2 h2
    simp [nonceLive, h2]
  · rintro (rfl | ⟨a, rfl, hst⟩ | rfl)
    · exact ⟨⟨403, ErrDetail.agentNotFound⟩, rfl⟩
    · exact ⟨⟨403, ErrDetail.agentNotActive⟩,
        by simp [verifyAgentAndSignature, hst]⟩
    · cases agent with
      | none => exact ⟨⟨403, ErrDetail.agentNotFound⟩, rfl⟩
      | some a =>
        by_cases hst : a.status = AgentStatus.active
        · exact ⟨⟨403, ErrDetail.invalidSignature⟩,
            by simp [verifyAgentAndSignature, hst]⟩
        · exact ⟨⟨403, ErrDetail.agentNotActive⟩,
            by simp [verifyAgentAndSignature, hst]⟩

/-- C10 witness: a fresh nonce on a request whose agent is missing is
consumed, and a second request with the same nonce within the TTL is
rejected with 403 "Nonce already used". -/
theorem c10_witness :
    verify_request [] 10 60 ⟨true, true, true, true, true, some "n1"⟩
        none true =
      (Except.error ⟨403, ErrDetail.agentNotFound⟩, [("n1", 70)]) ∧
    verify_request [("n1", 70)] 30 60 ⟨true, true, true, true, true, some "n1"⟩
        (some ⟨7, AgentStatus.active⟩) true =
      (Except.error ⟨403, ErrDetail.nonceAlreadyUsed⟩, [("n1", 70)]) := by
  constructor
  · exact (c10_nonce_consumed_before_auth [] 10 60
      ⟨true, true, true, true, true, some "n1"⟩ none true "n1"
      rfl rfl rfl rfl rfl rfl).1 (by decide)
  · exact (c10_nonce_consumed_before_auth [("n1", 70)] 30 60
      ⟨true, true, true, true, true, some "n1"⟩ (some ⟨7, AgentStatus.active⟩)
      true "n1" rfl rfl rfl rfl rfl rfl).2.1 (by decide)

/-! ## C7 — acceptance-criteria hash handshake on accept -/

/-- C7: on a job with non-null acceptance criteria (and an accept that
passes the party and transition checks), a seller accept with a missing
hash fails 422, with a wrong hash fails 409 — in both cases without a
successor job state, so the stored status is unchanged — and succeeds
with the stored hash; a client accept succeeds with no hash at all. -/
theorem c7_accept_requires_criteria_hash
    (job : JobRow) (d : Option AcceptJob)
    (hcrit : job.acceptance_criteria ≠ none)
    (htrans : JobStatus.agreed ∈ VALID_TRANSITIONS job.status) :
    (hashMissing (provided_hash d) = true →
      accept_job job job.seller_agent_id d =
        Except.error ⟨422, ErrDetail.missingCriteriaHash⟩) ∧
    (hashMissing (provided_hash d) = false →
      provided_hash d ≠ job.acceptance_criteria_hash →
      accept_job job job.seller_agent_id d =
        Except.error ⟨409, ErrDetail.criteriaHashMismatch⟩) ∧
    (hashMissing (provided_hash d) = false →
      provided_hash d = job.acceptance_criteria_hash →
      accept_job job job.seller_agent_id d =
        Except.ok { job with status := JobStatus.agreed }) ∧
    (job.client_agent_id ≠ job.seller_agent_id →
      accept_job job job.client_agent_id d =
        Except.ok { job with status := JobStatus.agreed }) := by
  have hA : assert_transition job.status JobStatus.agreed = Except.ok () := by
    unfold assert_transition
    rw [if_pos htrans]
  refine ⟨?_, ?_, ?_, ?_⟩
  · intro hmiss
    simp [accept_job, hA, hcrit, hmiss]
  · intro hmiss hne
    simp [accept_job, hA, hcrit, hmiss, hne]
  · intro hmiss heq
    have hmiss2 : hashMissing job.acceptance_criteria_hash = false := by
      rw [← heq]
      exact hmiss
    simp [accept_job, hA, hcrit, hmiss, hmiss2, heq]
  · intro hne
    simp [accept_job, hA, hne]

/-- C7 witness: a negotiating job with criteria; the seller's accept
fails 422 without a hash, fails 409 with a wrong hash, succeeds with
the stored hash, and the client's accept needs no hash. -/
theorem c7_witness :
    accept_job ⟨JobStatus.negotiating, 1, 2, some "criteria-json", some "abc"⟩ 2
        none =
      Except.error ⟨422, ErrDetail.missingCriteriaHash⟩ ∧
    accept_job ⟨JobStatus.negotiating, 1, 2, some "criteria-json", some "abc"⟩ 2
        (some ⟨some "wrong"⟩) =
      Except.error ⟨409, ErrDetail.criteriaHashMismatch⟩ ∧
    accept_job ⟨JobStatus.negotiating, 1, 2, some "criteria-json", some "abc"⟩ 2
        (some ⟨some "abc"⟩) =
      Except.ok ⟨JobStatus.agreed, 1, 2, some "criteria-json", some "abc"⟩ ∧
    accept_job ⟨JobStatus.negotiating, 1, 2, some "criteria-json", some "abc"⟩ 1
        none =
      Except.ok ⟨JobStatus.agreed, 1, 2, some "criteria-json", some "abc"⟩ := by
  refine ⟨?_, ?_, ?_, ?_⟩
  · exact (c7_accept_requires_criteria_hash
      ⟨JobStatus.negotiating, 1, 2, some "criteria-json", some "abc"⟩ none
      (by decide) (by decide)).1 rfl
  · exact (c7_accept_requires_criteria_hash
      ⟨JobStatus.negotiating, 1, 2, some "criteria-json", some "abc"⟩
      (some ⟨some "wrong"⟩) (by decide) (by decide)).2.1 (by decide) (by decide)
  · exact (c7_accept_requires_criteria_hash
      ⟨JobStatus.negotiating, 1, 2, some "criteria-json", some "abc"⟩
      (some ⟨some "abc"⟩) (by decide) (by decide)).2.2.1 (by decide) (by decide)
  · exact (c7_accept_requires_criteria_hash
      ⟨JobStatus.negotiating, 1, 2, some "criteria-json", some "abc"⟩ none
      (by decide) (by decide)).2.2.2 (by decide)

/-! ## C6 — withdrawal deducts up front, a failed payout restores -/

/-- C6: a withdrawal request passing the fee/min/max checks deducts the
gross amount from the balance the moment it is created and records a
`pending` row; insufficient balance fails 422 with no successor state
(the balance is untouched); and a withdrawal whose payout attempt fails
is marked `failed` with the gross amount restored, so the balance
equals the balance before the request. -/
theorem c6_withdrawal_conservation
    (cfg : WalletSettings) (s : WalletState) (amount : ℚ)
    (hfee : 0 < amount - cfg.withdrawal_flat_fee)
    (hmin : cfg.min_withdrawal_amount ≤ amount)
    (hmax : amount ≤ cfg.max_withdrawal_amount) :
    (amount ≤ s.balance →
      request_withdrawal cfg s amount =
        Except.ok ⟨s.balance - amount,
          some ⟨amount, cfg.withdrawal_flat_fee,
            amount - cfg.withdrawal_flat_fee, WithdrawalStatus.pending⟩⟩) ∧
    (s.balance < amount →
      request_withdrawal cfg s amount =
        Except.error ⟨422, ErrDetail.insufficientBalance s.balance amount⟩) ∧
    (∀ s2 : WalletState, request_withdrawal cfg s amount = Except.ok s2 →
      process_withdrawal true false s2 =
        ⟨s.balance,
          some ⟨amount, cfg.withdrawal_flat_fee,
            amount - cfg.withdrawal_flat_fee, WithdrawalStatus.failed⟩⟩) := by
  have h1 : ¬(amount - cfg.withdrawal_flat_fee ≤ 0) := by linarith
  have h2 : ¬(amount < cfg.min_withdrawal_amount) := by linarith
  have h3 : ¬(cfg.max_withdrawal_amount < amount) := by linarith
  refine ⟨?_, ?_, ?_⟩
  · intro hbal
    have h4 : ¬(s.balance < amount) := by linarith
    simp only [request_withdrawal]
    rw [if_neg h1, if_neg h2, if_neg h3, if_neg h4]
  · intro hbal
    simp only [request_withdrawal]
    rw [if_neg h1, if_neg h2, if_neg h3, if_pos hbal]
  · intro s2 hok
    by_cases hbal : s.balance < amount
    · simp only [request_withdrawal] at hok
      rw [if_neg h1, if_neg h2, if_neg h3, if_pos hbal] at hok
      exact absurd hok (by simp)
    · simp only [request_withdrawal] at hok
      rw [if_neg h1, if_neg h2, if_neg h3, if_neg hbal] at hok
      cases hok
      have hb : s.balance - amount + amount = s.balance := by ring
      unfold process_withdrawal
      simp [hb]

/-- C6 witness: with a balance of 10, requesting 5 leaves 5 and a
pending row; a failed payout restores the balance to 10; requesting 20
fails 422. -/
theorem c6_witness :
    request_withdrawal defaultWalletSettings ⟨10, none⟩ 5 =
      Except.ok ⟨10 - 5,
        some ⟨5, defaultWalletSettings.withdrawal_flat_fee,
          5 - defaultWalletSettings.withdrawal_flat_fee,
          WithdrawalStatus.pending⟩⟩ ∧
    process_withdrawal true false
        ⟨10 - 5,
          some ⟨5, defaultWalletSettings.withdrawal_flat_fee,
            5 - defaultWalletSettings.withdrawal_flat_fee,
            WithdrawalStatus.pending⟩⟩ =
      ⟨(10 : ℚ),
        some ⟨5, defaultWalletSettings.withdrawal_flat_fee,
          5 - defaultWalletSettings.withdrawal_flat_fee,
          WithdrawalStatus.failed⟩⟩ ∧
    request_withdrawal defaultWalletSettings ⟨10, none⟩ 20 =
      Except.error ⟨422, ErrDetail.insufficientBalance 10 20⟩ := by
  have hbase := c6_withdrawal_conservation defaultWalletSettings ⟨10, none⟩ 5
    (by norm_num [defaultWalletSettings]) (by norm_num [defaultWalletSettings])
    (by norm_num [defaultWalletSettings])
  have h1 := hbase.1 (by norm_num)
  refine ⟨h1, ?_, ?_⟩
  · exact hbase.2.2 _ h1
  · exact (c6_withdrawal_conservation defaultWalletSettings ⟨10, none⟩ 20
      (by norm_num [defaultWalletSettings]) (by norm_num [defaultWalletSettings])
      (by norm_num [defaultWalletSettings])).2.1 (by norm_num)

/-! ## C1 — escrow funding -/

/-- C1: funding succeeds only from `agreed` with no pre-existing escrow
and a sufficient client balance; on success the client loses exactly
the agreed price, a funded escrow of the agreed price is created, the
job moves to `funded` and the `created` / `funded` audit entries are
appended.  Insufficient balance → 422, pre-existing escrow → 409, job
not `agreed` → 409. -/
theorem c1_fund_job_correct (s : MarketState) (p : ℚ) :
    (s.jobStatus = JobStatus.agreed → s.agreedPrice = some p → 0 < p →
      s.escrow = none → p ≤ s.clientBalance →
      fund_job s true = Except.ok
        { s with
          clientBalance := s.clientBalance - p
          escrow := some ⟨p, EscrowStatus.funded⟩
          jobStatus := JobStatus.funded
          auditLog := s.auditLog ++
            [⟨EscrowAction.created, p, none⟩, ⟨EscrowAction.funded, p, none⟩] }) ∧
    (s.jobStatus = JobStatus.agreed → s.agreedPrice = some p → 0 < p →
      s.escrow = none → s.clientBalance < p →
      fund_job s true =
        Except.error ⟨422, ErrDetail.insufficientBalance s.clientBalance p⟩) ∧
    (s.jobStatus = JobStatus.agreed → s.agreedPrice = some p → 0 < p →
      s.escrow.isSome →
      fund_job s true = Except.error ⟨409, ErrDetail.escrowAlreadyExists⟩) ∧
    (s.jobStatus ≠ JobStatus.agreed → ∀ c : Bool,
      fund_job s c = Except.error ⟨409, ErrDetail.jobMustBeAgreed s.jobStatus⟩) ∧
    (∀ (c : Bool) (s2 : MarketState), fund_job s c = Except.ok s2 →
      s.jobStatus = JobStatus.agreed ∧ s.escrow = none ∧
      ∃ q, s.agreedPrice = some q ∧ 0 < q ∧ q ≤ s.clientBalance) := by
  refine ⟨?_, ?_, ?_, ?_, ?_⟩
  · intro hst hp hpos hesc hbal
    have h0 : ¬(p ≤ 0) := not_le.mpr hpos
    have hb : ¬(s.clientBalance < p) := not_lt.mpr hbal
    simp [fund_job, hst, hp, hesc, h0, hb]
  · intro hst hp hpos hesc hbal
    have h0 : ¬(p ≤ 0) := not_le.mpr hpos
    simp [fund_job, hst, hp, hesc, h0, hbal]
  · intro hst hp hpos hesc
    have h0 : ¬(p ≤ 0) := not_le.mpr hpos
    simp [fund_job, hst, hp, h0, hesc]
  · intro hst c
    simp [fund_job, hst]
  · intro c s2 h
    unfold fund_job at h
    split at h
    · cases h
    · rename_i h1
      split at h
      · cases h
      · split at h
        · cases h
        · rename_i q heq
          split at h
          · cases h
          · rename_i h3
            split at h
            · cases h
            · rename_i h4
              split at h
              · cases h
              · rename_i h5
                push_neg at h1
                exact ⟨h1, Option.not_isSome_iff_eq_none.mp h4, q, heq,
                  lt_of_not_le h3, le_of_not_lt h5⟩

/-- C1 witness: a 25.00 job funds from a 500.00 balance leaving
475.00; a 10.00 balance fails 422; a second fund fails 409; a
`proposed` job fails 409. -/
theorem c1_witness :
    fund_job ⟨JobStatus.agreed, some 25, 500, 0, none, []⟩ true =
      Except.ok ⟨JobStatus.funded, some 25, 500 - 25, 0,
        some ⟨25, EscrowStatus.funded⟩,
        [⟨EscrowAction.created, 25, none⟩, ⟨EscrowAction.funded, 25, none⟩]⟩ ∧
    fund_job ⟨JobStatus.agreed, some 25, 10, 0, none, []⟩ true =
      Except.error ⟨422, ErrDetail.insufficientBalance 10 25⟩ ∧
    fund_job ⟨JobStatus.agreed, some 25, 500, 0,
        some ⟨25, EscrowStatus.funded⟩, []⟩ true =
      Except.error ⟨409, ErrDetail.escrowAlreadyExists⟩ ∧
    fund_job ⟨JobStatus.proposed, some 25, 500, 0, none, []⟩ true =
      Except.error ⟨409, ErrDetail.jobMustBeAgreed JobStatus.proposed⟩ := by
  refine ⟨?_, ?_, ?_, ?_⟩
  · exact (c1_fund_job_correct ⟨JobStatus.agreed, some 25, 500, 0, none, []⟩
      25).1 rfl rfl (by norm_num) rfl (by norm_num)
  · exact (c1_fund_job_correct ⟨JobStatus.agreed, some 25, 10, 0, none, []⟩
      25).2.1 rfl rfl (by norm_num) rfl (by norm_num)
  · exact (c1_fund_job_correct ⟨JobStatus.agreed, some 25, 500, 0,
      some ⟨25, EscrowStatus.funded⟩, []⟩ 25).2.2.1 rfl rfl (by norm_num) rfl
  · exact (c1_fund_job_correct ⟨JobStatus.proposed, some 25, 500, 0, none, []⟩
      25).2.2.2.1 (by decide) true

/-! ## C2 — escrow release with best-effort client fee -/

/-- C2: release requires a funded escrow (otherwise 409); on a
delivered/verifying job it credits the seller with exactly the escrow
amount minus the seller's base-fee share, deducts the client's share
only when the balance covers it (completing either way, the platform
absorbing the fee otherwise), marks the escrow `released`, completes
the job and appends an audit entry carrying the full fee breakdown in
its metadata. -/
theorem c2_release_escrow_correct (bp : ℚ) (s : MarketState)
    (esc : EscrowAccount) (hesc : s.escrow = some esc) :
    (esc.status ≠ EscrowStatus.funded →
      release_escrow bp s =
        Except.error ⟨409, ErrDetail.escrowMustBeFunded esc.status.value⟩) ∧
    (esc.status = EscrowStatus.funded →
      s.jobStatus = JobStatus.delivered ∨ s.jobStatus = JobStatus.verifying →
      release_escrow bp s = Except.ok
        { s with
          clientBalance :=
            if (calculate_base_fee bp esc.amount).1.amount ≤ s.clientBalance
            then s.clientBalance - (calculate_base_fee bp esc.amount).1.amount
            else s.clientBalance
          sellerBalance :=
            s.sellerBalance + (esc.amount - (calculate_base_fee bp esc.amount).2.amount)
          escrow := some ⟨esc.amount, EscrowStatus.released⟩
          jobStatus := JobStatus.completed
          auditLog := s.auditLog ++
            [⟨EscrowAction.released,
              esc.amount - (calculate_base_fee bp esc.amount).2.amount,
              some ⟨(calculate_base_fee bp esc.amount).1.amount +
                      (calculate_base_fee bp esc.amount).2.amount,
                    (calculate_base_fee bp esc.amount).1.amount,
                    (calculate_base_fee bp esc.amount).2.amount, bp⟩⟩] }) := by
  constructor
  · intro hnf
    simp [release_escrow, hesc, hnf]
  · intro hf hjob
    have hj : ¬(s.jobStatus ≠ JobStatus.delivered ∧
        s.jobStatus ≠ JobStatus.verifying) := by
      rcases hjob with h | h <;> simp [h]
    simp [release_escrow, hesc, hf, hj]

/-- C2 witness: releasing a 28.00 escrow (fee split 0.14 / 0.14) on a
delivered job credits the seller 27.86; a solvent client pays the 0.14
share, an insolvent client (balance 0.10) pays nothing yet the release
still completes; a released escrow cannot be released again (409). -/
theorem c2_witness :
    release_escrow fee_base_percent
        ⟨JobStatus.delivered, some 28, 50, 100, some ⟨28, EscrowStatus.funded⟩, []⟩ =
      Except.ok ⟨JobStatus.completed, some 28, 50 - 14/100, 100 + (28 - 14/100),
        some ⟨28, EscrowStatus.released⟩,
        [⟨EscrowAction.released, 28 - 14/100,
          some ⟨14/100 + 14/100, 14/100, 14/100, fee_base_percent⟩⟩]⟩ ∧
    release_escrow fee_base_percent
        ⟨JobStatus.delivered, some 28, 1/10, 100, some ⟨28, EscrowStatus.funded⟩, []⟩ =
      Except.ok ⟨JobStatus.completed, some 28, 1/10, 100 + (28 - 14/100),
        some ⟨28, EscrowStatus.released⟩,
        [⟨EscrowAction.released, 28 - 14/100,
          some ⟨14/100 + 14/100, 14/100, 14/100, fee_base_percent⟩⟩]⟩ ∧
    release_escrow fee_base_percent
        ⟨JobStatus.completed, some 28, 50, 100, some ⟨28, EscrowStatus.released⟩, []⟩ =
      Except.error ⟨409, ErrDetail.escrowMustBeFunded "released"⟩ := by
  refine ⟨?_, ?_, ?_⟩
  · have h := (c2_release_escrow_correct fee_base_percent
      ⟨JobStatus.delivered, some 28, 50, 100, some ⟨28, EscrowStatus.funded⟩, []⟩
      ⟨28, EscrowStatus.funded⟩ rfl).2 rfl (Or.inl rfl)
    rw [calculate_base_fee_at_28] at h
    rw [if_pos (by norm_num : ((14:ℚ)/100 ≤ 50))] at h
    exact h
  · have h := (c2_release_escrow_correct fee_base_percent
      ⟨JobStatus.delivered, some 28, 1/10, 100, some ⟨28, EscrowStatus.funded⟩, []⟩
      ⟨28, EscrowStatus.funded⟩ rfl).2 rfl (Or.inl rfl)
    rw [calculate_base_fee_at_28] at h
    rw [if_neg (by norm_num : ¬((14:ℚ)/100 ≤ 1/10))] at h
    exact h
  · exact (c2_release_escrow_correct fee_base_percent
      ⟨JobStatus.completed, some 28, 50, 100, some ⟨28, EscrowStatus.released⟩, []⟩
      ⟨28, EscrowStatus.released⟩ rfl).1 (by decide)

/-! ## C3 — base fee split (corrected)

The claim says the split assigns the extra odd cent to the client, so
that the client share is never smaller than the seller share.  The code
quantizes the seller's half with the `Decimal` *default* rounding,
which is half-to-even: for a 3-cent total the seller's 1.5 cents round
to 2 cents and the client gets only 1. -/

/-- C3 counterexample: at agreed price 2.01 (default 1% fee) the total
fee is 3 cents — odd — yet the client share (1 cent) is strictly
smaller than the seller share (2 cents), refuting the claimed
"extra cent to the client's share, so client ≥ seller for every p". -/
theorem c3_counterexample :
    (calculate_base_fee fee_base_percent (201/100)).1.amount +
        (calculate_base_fee fee_base_percent (201/100)).2.amount = 3/100 ∧
    (calculate_base_fee fee_base_percent (201/100)).1.amount <
        (calculate_base_fee fee_base_percent (201/100)).2.amount := by
  rw [calculate_base_fee_at_201]
  norm_num

/-- C3 (amended): for every nonnegative price and base percent, the
total base fee is `base_percent × p` rounded up to the next 0.01 (`T`
cents), the two shares sum to it, and the split rounds the seller's
half to the nearest even cent: an even total splits equally, and an odd
total gives the extra cent to the client iff `T % 4 = 1` and to the
seller iff `T % 4 = 3`. -/
theorem c3_base_fee_split (bp p : ℚ) (hbp : 0 ≤ bp) (hp : 0 ≤ p) :
    ((calculate_base_fee bp p).1.amount + (calculate_base_fee bp p).2.amount =
      quantRoundUp2 (p * bp)) ∧
    (quantRoundUp2 (p * bp) = ((⌈p * bp * 100⌉ : ℤ) : ℚ) / 100) ∧
    (⌈p * bp * 100⌉ % 2 = 0 →
      (calculate_base_fee bp p).1.amount = (calculate_base_fee bp p).2.amount) ∧
    (⌈p * bp * 100⌉ % 4 = 1 →
      (calculate_base_fee bp p).1.amount =
        (calculate_base_fee bp p).2.amount + 1/100) ∧
    (⌈p * bp * 100⌉ % 4 = 3 →
      (calculate_base_fee bp p).2.amount =
        (calculate_base_fee bp p).1.amount + 1/100) := by
  have h0 : (0 : ℚ) ≤ p * bp := mul_nonneg hp hbp
  have hcomm : p * bp = bp * p := mul_comm p bp
  set T : ℤ := ⌈p * bp * 100⌉ with hT
  have htot : quantRoundUp2 (p * bp) = (T : ℚ) / 100 := by
    unfold quantRoundUp2
    rw [if_pos h0]
  have hhalf : ((T : ℚ) / 100) / 2 * 100 = (T : ℚ) / 2 := by ring
  have hsell : (calculate_base_fee bp p).2.amount =
      ((halfEvenInt ((T : ℚ) / 2) : ℤ) : ℚ) / 100 := by
    simp only [calculate_base_fee, quantHalfEven2, ← hcomm]
    rw [htot, hhalf]
  have hcli : (calculate_base_fee bp p).1.amount =
      (T : ℚ) / 100 - ((halfEvenInt ((T : ℚ) / 2) : ℤ) : ℚ) / 100 := by
    simp only [calculate_base_fee, quantHalfEven2, ← hcomm]
    rw [htot, hhalf]
  have hhe := halfEvenInt_int_half T
  refine ⟨?_, htot, ?_, ?_, ?_⟩
  · rw [hcli, hsell, htot]
    ring
  · intro hmod
    obtain ⟨k, hk⟩ : ∃ k, T = 2 * k := ⟨T / 2, by omega⟩
    have hdiv : T / 2 = k := by omega
    rw [hcli, hsell, hhe, if_pos hmod, hdiv, hk]
    push_cast
    ring
  · intro hmod
    have h2 : ¬(T % 2 = 0) := by omega
    have hke : (T / 2) % 2 = 0 := by omega
    have hk : T = 2 * (T / 2) + 1 := by omega
    have hcast := congrArg (fun z : ℤ => (z : ℚ)) hk
    push_cast at hcast
    rw [hcli, hsell, hhe, if_neg h2, if_pos hke, hcast]
    ring
  · intro hmod
    have h2 : ¬(T % 2 = 0) := by omega
    have hko : ¬((T / 2) % 2 = 0) := by omega
    have hk : T = 2 * (T / 2) + 1 := by omega
    have hcast := congrArg (fun z : ℤ => (z : ℚ)) hk
    push_cast at hcast
    rw [hsell, hcli, hhe, if_neg h2, if_neg hko, hcast]
    push_cast
    ring

/-- C3 witness: at price 2.01 the total is 3 cents, `3 % 4 = 3`, and
indeed the seller share exceeds the client share by exactly one cent. -/
theorem c3_witness :
    (calculate_base_fee fee_base_percent (201/100)).2.amount =
      (calculate_base_fee fee_base_percent (201/100)).1.amount + 1/100 := by
  have hceil : (⌈(201/100 * fee_base_percent : ℚ) * 100⌉ : ℤ) = 3 := by
    rw [Int.ceil_eq_iff]
    unfold fee_base_percent
    norm_num
  exact (c3_base_fee_split fee_base_percent (201/100)
    (by unfold fee_base_percent; norm_num) (by norm_num)).2.2.2.2
    (by rw [hceil]; decide)

/-! ## C4 — the job transition table (corrected)

The claim recites the §4.2 table with `delivered → verifying, failed,
completed` and says every status change follows a table edge.  The
code's `VALID_TRANSITIONS` has no `delivered → completed` edge (that
change is made only by `release_escrow`, which bypasses
`_assert_transition`), and deadline expiry / escrow refund force a
`funded` job straight to `failed` — an edge in neither table. -/

/-- C4 counterexample: deadline expiry moves a `funded` job to
`failed`, an edge absent from the §4.2 table as recited by the claim;
moreover the claim's table contains `delivered → completed`, which the
code's `VALID_TRANSITIONS` does not. -/
theorem c4_counterexample :
    deadline_fail_status JobStatus.funded = some JobStatus.failed ∧
    JobStatus.failed ∉ specTransitionTable JobStatus.funded ∧
    JobStatus.completed ∈ specTransitionTable JobStatus.delivered ∧
    JobStatus.completed ∉ VALID_TRANSITIONS JobStatus.delivered := by
  decide

/-- C4 (amended): requests guarded by `_assert_transition` succeed
exactly along the edges of the code's `VALID_TRANSITIONS` and otherwise
fail 409 carrying the current (and target) status; `VALID_TRANSITIONS`
is the §4.2 table minus the `delivered → completed` edge.  The
`delivered|verifying → completed` change is made only by escrow
release, and escrow refund and deadline expiry (on `funded`,
`in_progress` or `delivered` jobs) force the job to `failed` outside
the table; successful funds and accepts do follow the table. -/
theorem c4_transition_table :
    (∀ c t : JobStatus,
      assert_transition c t = Except.ok () ↔ t ∈ VALID_TRANSITIONS c) ∧
    (∀ c t : JobStatus, t ∉ VALID_TRANSITIONS c →
      assert_transition c t =
        Except.error ⟨409, ErrDetail.cannotTransition c t⟩) ∧
    (∀ c t : JobStatus, t ∈ VALID_TRANSITIONS c ↔
      (t ∈ specTransitionTable c ∧
        ¬(c = JobStatus.delivered ∧ t = JobStatus.completed))) ∧
    (∀ (bp : ℚ) (s s2 : MarketState), release_escrow bp s = Except.ok s2 →
      (s.jobStatus = JobStatus.delivered ∨ s.jobStatus = JobStatus.verifying) ∧
      s2.jobStatus = JobStatus.completed) ∧
    (∀ s s2 : MarketState, refund_escrow s = Except.ok s2 →
      s2.jobStatus = JobStatus.failed) ∧
    (∀ st st2 : JobStatus, deadline_fail_status st = some st2 →
      st2 = JobStatus.failed ∧
      (st = JobStatus.funded ∨ st = JobStatus.in_progress ∨
        st = JobStatus.delivered)) ∧
    (∀ (s : MarketState) (c : Bool) (s2 : MarketState),
      fund_job s c = Except.ok s2 →
      s.jobStatus = JobStatus.agreed ∧ s2.jobStatus = JobStatus.funded ∧
      JobStatus.funded ∈ VALID_TRANSITIONS s.jobStatus) ∧
    (∀ (job : JobRow) (a : Nat) (d : Option AcceptJob) (job2 : JobRow),
      accept_job job a d = Except.ok job2 →
      JobStatus.agreed ∈ VALID_TRANSITIONS job.status ∧
      job2.status = JobStatus.agreed) := by
  refine ⟨?_, ?_, ?_, ?_, ?_, ?_, ?_, ?_⟩
  · intro c t
    unfold assert_transition
    by_cases hm : t ∈ VALID_TRANSITIONS c
    · rw [if_pos hm]
      simp [hm]
    · rw [if_neg hm]
      simp [hm]
  · intro c t hm
    unfold assert_transition
    rw [if_neg hm]
  · decide
  · intro bp s s2 h
    simp only [release_escrow] at h
    split at h
    · cases h
    · split at h
      · cases h
      · split at h
        · cases h
        · rename_i hj
          rw [not_and_or, not_not, not_not] at hj
          cases h
          exact ⟨hj, rfl⟩
  · intro s s2 h
    simp only [refund_escrow] at h
    split at h
    · cases h
    · split at h
      · cases h
      · cases h
        rfl
  · decide
  · intro s c s2 h
    unfold fund_job at h
    split at h
    · cases h
    · rename_i h1
      push_neg at h1
      split at h
      · cases h
      · split at h
        · cases h
        · split at h
          · cases h
          · split at h
            · cases h
            · split at h
              · cases h
              · cases h
                exact ⟨h1, rfl, by rw [h1]; decide⟩
  · intro job a d job2 h
    unfold accept_job at h
    split at h
    · cases h
    · split at h
      · cases h
      · rename_i u heq
        have hmem : JobStatus.agreed ∈ VALID_TRANSITIONS job.status := by
          unfold assert_transition at heq
          split at heq
          · assumption
          · cases heq
        refine ⟨hmem, ?_⟩
        split at h
        · split at h
          · cases h
          · split at h
            · cases h
            · cases h
              rfl
        · cases h
          rfl

/-- C4 witness: a `completed` job admits no transition — asking for
`completed → failed` yields the 409 with the current status — while
`agreed → funded` is a valid edge; and `delivered → completed` is
allowed by the claim's table but not by the code's. -/
theorem c4_witness :
    assert_transition JobStatus.completed JobStatus.failed =
      Except.error ⟨409, ErrDetail.cannotTransition JobStatus.completed
        JobStatus.failed⟩ ∧
    assert_transition JobStatus.agreed JobStatus.funded = Except.ok () ∧
    assert_transition JobStatus.delivered JobStatus.completed =
      Except.error ⟨409, ErrDetail.cannotTransition JobStatus.delivered
        JobStatus.completed⟩ := by
  refine ⟨?_, ?_, ?_⟩
  · exact c4_transition_table.2.1 JobStatus.completed JobStatus.failed
      (by decide)
  · exact (c4_transition_table.1 JobStatus.agreed JobStatus.funded).mpr
      (by decide)
  · exact c4_transition_table.2.1 JobStatus.delivered JobStatus.completed
      (by decide)

end Claims
